import Mathlib

/-
Verification of the Console-Based-Memory-Match-Game (src/memory.js).

The JavaScript source is shallowly embedded: JS arrays become Lean lists,
in-place mutation becomes explicit state passing, and fallible operations
return Option.  Platform effects (the file system, JSON serialization)
are modelled at the logical value level: the persisted file content is a
JSON value, an absent or unparsable file is an Option failure.
-/

namespace MemoryMatch

/-- The module-level symbol pool (src/memory.js line 12):
8 distinct symbols, each twice, 16 entries. -/
def symbols : List String :=
  ["A", "A", "B", "B", "C", "C", "D", "D", "E", "E", "F", "F", "G", "G", "H", "H"]

/-- Scoring (src/memory.js line 164): `Math.max(100 - moves * 5, 10)`.
JS numbers on these inputs are exact integers, embedded as Int. -/
def computeScore (moves : Nat) : Int :=
  max (100 - (moves : Int) * 5) 10

/-- One persisted leaderboard entry (src/memory.js line 27):
`{ name, score, date }`. -/
structure ScoreRecord where
  name : String
  score : Int
  date : String
deriving DecidableEq, Repr

/-- The sort order used by `highScores.sort((a, b) => b.score - a.score)`
(src/memory.js line 28): descending by score. -/
def scoreGe (a b : ScoreRecord) : Prop := b.score ≤ a.score

instance : DecidableRel scoreGe := fun a b => Int.decLe b.score a.score

instance : IsTotal ScoreRecord scoreGe := ⟨fun a b => Int.le_total b.score a.score⟩

instance : IsTrans ScoreRecord scoreGe := ⟨fun _ _ _ h1 h2 => le_trans h2 h1⟩

/-- The pure merge performed by `saveHighScore` (src/memory.js lines 25-31):
push the new entry, sort descending by score, `splice(5)` keeps the top 5.
`Array.prototype.sort` is stable, and a stable sort by a fixed key is
unique, so it is embedded as the stable `List.insertionSort`. -/
def mergeHighScores (existing : List ScoreRecord) (entry : ScoreRecord) :
    List ScoreRecord :=
  (List.insertionSort scoreGe (existing ++ [entry])).take 5

/-- JSON values, the logical content of the persisted high-score file.
`JSON.parse`/`JSON.stringify` are modelled at this value level: a parse
failure (malformed text) is `none`, a successful parse is the value. -/
inductive Json where
  | null : Json
  | bool (b : Bool) : Json
  | num (n : Int) : Json
  | str (s : String) : Json
  | arr (xs : List Json) : Json
  | obj (fields : List (String × Json)) : Json

/-- The JSON object written for one entry by `JSON.stringify` of
`{ name, score, date }` (src/memory.js lines 27, 30). -/
def encodeRecord (r : ScoreRecord) : Json :=
  Json.obj [("name", Json.str r.name), ("score", Json.num r.score),
            ("date", Json.str r.date)]

/-- The JSON array written by `saveHighScore` (src/memory.js line 30). -/
def encodeScores (l : List ScoreRecord) : Json :=
  Json.arr (l.map encodeRecord)

/-- Reading one persisted entry back as a `{ name, score, date }` record. -/
def decodeRecord : Json → Option ScoreRecord
  | Json.obj [("name", Json.str n), ("score", Json.num s), ("date", Json.str d)] =>
      some ⟨n, s, d⟩
  | _ => none

def decodeRecordList : List Json → Option (List ScoreRecord)
  | [] => some []
  | j :: js =>
      match decodeRecord j, decodeRecordList js with
      | some r, some rs => some (r :: rs)
      | _, _ => none

/-- Reading a persisted JSON value back as a leaderboard list. -/
def decodeScores : Json → Option (List ScoreRecord)
  | Json.arr xs => decodeRecordList xs
  | _ => none

/-- `loadHighScores` (src/memory.js lines 15-22): `fs.readFile` may fail
(absent file, modelled by `none`), `JSON.parse` may throw (malformed
content, modelled by the supplied `parse` returning `none`); the
surrounding `try/catch` turns either failure into the empty array. -/
def loadHighScores (parse : String → Option Json) (readResult : Option String) :
    Json :=
  match readResult with
  | none => Json.arr []
  | some data =>
      match parse data with
      | some v => v
      | none => Json.arr []

/-- The swap `[array[i], array[j]] = [array[j], array[i]]`
(src/memory.js line 56): both reads happen before either write. -/
def swapIdx (l : List α) (i j : Nat) (d : α) : List α :=
  (l.set i (l.getD j d)).set j (l.getD i d)

/-- The Fisher-Yates loop of `shuffle` (src/memory.js lines 54-57),
running `i` from the given start down to 1.  The uniform draw
`Math.floor(Math.random() * (i + 1))`, always in `[0, i]`, is modelled by
an arbitrary stream `rand` reduced mod `i + 1`. -/
def shuffleFrom (rand : Nat → Nat) (d : α) : Nat → List α → List α
  | 0, arr => arr
  | i + 1, arr => shuffleFrom rand d i (swapIdx arr (i + 1) (rand (i + 1) % (i + 2)) d)

/-- `shuffle` (src/memory.js lines 53-59): Fisher-Yates over the whole
array, from index `length - 1` down to 1. -/
def shuffle (rand : Nat → Nat) (d : α) (arr : List α) : List α :=
  shuffleFrom rand d (arr.length - 1) arr

/-- `createBoard` (src/memory.js lines 62-69): shuffle a copy of
`symbols`, then cut it into 4 rows via `slice(i*4, (i+1)*4)`. -/
def createBoard (rand : Nat → Nat) : List (List String) :=
  let shuffled := shuffle rand "" symbols
  (List.range 4).map (fun i => (shuffled.drop (i * 4)).take 4)

/-- Membership in the regex character class `[1-4]`. -/
def isCoordDigit (ch : Char) : Bool :=
  ch == '1' || ch == '2' || ch == '3' || ch == '4'

/-- The anchored regex test `/^[1-4],[1-4]$/.test(input)`
(src/memory.js line 86): the whole string is digit, comma, digit. -/
def coordPattern (s : String) : Bool :=
  match s.toList with
  | [a, sep, b] => sep == ',' && isCoordDigit a && isCoordDigit b
  | _ => false

/-- `parseInt` applied to one of the single-digit pieces of a string that
passed the regex. -/
def charToDigit (ch : Char) : Nat :=
  ch.toNat - '0'.toNat

/-- `parseCoordinates` (src/memory.js lines 85-91): regex-test the input
(throw, i.e. `none`, on failure), then `split(',')` and map
`parseInt(num) - 1`. -/
def parseCoordinates (s : String) : Option (Nat × Nat) :=
  if coordPattern s then
    match s.toList with
    | [a, _, b] => some (charToDigit a - 1, charToDigit b - 1)
    | _ => none
  else none

/-- Reading `g[r][c]` in a 4x4 nested JS array. -/
def getCell (g : List (List α)) (r c : Nat) (d : α) : α :=
  (g.getD r []).getD c d

/-- Writing `g[r][c] = v` in a 4x4 nested JS array. -/
def setCell (g : List (List α)) (r c : Nat) (v : α) : List (List α) :=
  g.set r ((g.getD r []).set c v)

/-- Shape invariant of the nested arrays built at src/memory.js
lines 62-69 and 96: four rows of four cells. -/
def Grid4 (g : List (List α)) : Prop :=
  g.length = 4 ∧ ∀ i, i < 4 → (g.getD i []).length = 4

instance (g : List (List α)) : Decidable (Grid4 g) := by
  unfold Grid4; infer_instance

/-- The mutable round state of `playGame` (src/memory.js lines 95-98):
the board, the revealed mask (`Array(4).fill().map(() => Array(4).fill(false))`),
and the `moves` and `matches` counters (the latter renamed `matchCount`: `matches` is reserved in Lean). -/
structure RoundState where
  board : List (List String)
  revealed : List (List Bool)
  moves : Nat
  matchCount : Nat
deriving Repr

/-- The effect of an accepted first pick (src/memory.js line 123):
`revealed[row1][col1] = true`. -/
def revealFirst (st : RoundState) (r1 c1 : Nat) : RoundState :=
  { st with revealed := setCell st.revealed r1 c1 true }

/-- The rest of the loop body once the second pick is accepted
(src/memory.js lines 145-158): reveal it, count the move, then either
count the match or hide both cards again. -/
def resolveSecond (st : RoundState) (r1 c1 r2 c2 : Nat) : RoundState :=
  let rev2 := setCell st.revealed r2 c2 true
  if getCell st.board r1 c1 "" = getCell st.board r2 c2 "" then
    { st with revealed := rev2, moves := st.moves + 1, matchCount := st.matchCount + 1 }
  else
    { st with revealed := setCell (setCell rev2 r1 c1 false) r2 c2 false,
              moves := st.moves + 1 }

/-- One full turn from the top of the while loop, given the two accepted
picks: first reveal (line 123), then resolution (lines 145-158). -/
def turn (st : RoundState) (p : (Nat × Nat) × Nat × Nat) : RoundState :=
  resolveSecond (revealFirst st p.1.1 p.1.2) p.1.1 p.1.2 p.2.1 p.2.2

/-- The first-pick `validate` callback (src/memory.js lines 112-119):
`none` means accepted, `some msg` is the rejection message shown before
the re-prompt. -/
def validateFirst (revealed : List (List Bool)) (input : String) : Option String :=
  match parseCoordinates input with
  | none => some "Invalid format. Use coordinates (e.g., 1,2)."
  | some (r, c) =>
      if getCell revealed r c false then some "Card already revealed!" else none

/-- The second-pick `validate` callback (src/memory.js lines 132-141),
evaluated after the first card was revealed: one combined rejection for
an already-revealed cell or the first pick itself. -/
def validateSecond (revealed : List (List Bool)) (r1 c1 : Nat) (input : String) :
    Option String :=
  match parseCoordinates input with
  | none => some "Invalid format. Use coordinates (e.g., 2,3)."
  | some (r, c) =>
      if getCell revealed r c false || (r == r1 && c == c1) then
        some "Invalid or already revealed card!"
      else none

/-- One attempt at the first prompt: a rejected input re-prompts and
leaves the state alone; an accepted one reveals the card (line 123). -/
def attemptFirst (st : RoundState) (input : String) :
    RoundState × Option (Nat × Nat) :=
  match validateFirst st.revealed input with
  | some _ => (st, none)
  | none =>
      match parseCoordinates input with
      | some (r, c) => (revealFirst st r c, some (r, c))
      | none => (st, none)

/-- One attempt at the second prompt (after the first card is revealed):
a rejected input re-prompts and leaves the state alone; an accepted one
runs the resolution (lines 144-158). -/
def attemptSecond (st : RoundState) (r1 c1 : Nat) (input : String) :
    RoundState × Option (Nat × Nat) :=
  match validateSecond st.revealed r1 c1 input with
  | some _ => (st, none)
  | none =>
      match parseCoordinates input with
      | some (r, c) => (resolveSecond st r1 c1 r c, some (r, c))
      | none => (st, none)

/-- The picks of a turn are valid exactly when both prompts' validation
passes: coordinates in range (the regex admits only 0..3 after the
1-based shift), first cell hidden, second cell hidden after the first
reveal, and the second pick distinct from the first. -/
def ValidTurn (st : RoundState) (p : (Nat × Nat) × Nat × Nat) : Prop :=
  p.1.1 ≤ 3 ∧ p.1.2 ≤ 3 ∧ p.2.1 ≤ 3 ∧ p.2.2 ≤ 3 ∧
    getCell st.revealed p.1.1 p.1.2 false = false ∧
    getCell (setCell st.revealed p.1.1 p.1.2 true) p.2.1 p.2.2 false = false ∧
    ¬(p.2.1 = p.1.1 ∧ p.2.2 = p.1.2)

instance (st : RoundState) (p : (Nat × Nat) × Nat × Nat) :
    Decidable (ValidTurn st p) := by
  unfold ValidTurn; infer_instance

/-- Running a sequence of turns (iterations of the while loop). -/
def runTurns (st : RoundState) (ps : List ((Nat × Nat) × Nat × Nat)) : RoundState :=
  ps.foldl turn st

/-- Every turn of the sequence passes validation at the state it is
played in. -/
inductive ValidSeq : RoundState → List ((Nat × Nat) × Nat × Nat) → Prop where
  | nil (st : RoundState) : ValidSeq st []
  | cons {st : RoundState} {p : (Nat × Nat) × Nat × Nat}
      {ps : List ((Nat × Nat) × Nat × Nat)} :
      ValidTurn st p → ValidSeq (turn st p) ps → ValidSeq st (p :: ps)

/-- The module-level state of memory.js: the `symbols` array
(src/memory.js line 12), the one piece of data shared across rounds. -/
structure ModuleState where
  syms : List String
deriving DecidableEq, Repr

/-- `createBoard` acting on the module state (src/memory.js lines 62-63):
`shuffle([...symbols])` shuffles a fresh copy, so the module's own array
is returned untouched. -/
def createBoardM (m : ModuleState) (rand : Nat → Nat) :
    ModuleState × List (List String) :=
  let copy := m.syms
  let shuffled := shuffle rand "" copy
  (m, (List.range 4).map (fun i => (shuffled.drop (i * 4)).take 4))

/-- Any number of rounds, tracking only the module state. -/
def playRounds (m : ModuleState) (rands : List (Nat → Nat)) : ModuleState :=
  rands.foldl (fun s r => (createBoardM s r).1) m

/-! ### Helper lemmas about list updates -/

theorem getD_set_self (l : List α) (i : Nat) (a d : α) (h : i < l.length) :
    (l.set i a).getD i d = a := by
  simp [List.getD_eq_getElem?_getD, List.getElem?_set_self h]

theorem getD_set_ne (l : List α) {i j : Nat} (a d : α) (h : i ≠ j) :
    (l.set i a).getD j d = l.getD j d := by
  simp [List.getD_eq_getElem?_getD, List.getElem?_set_ne h]

theorem getCell_setCell_self (g : List (List α)) (r c : Nat) (v d : α)
    (hr : r < g.length) (hc : c < (g.getD r []).length) :
    getCell (setCell g r c v) r c d = v := by
  unfold getCell setCell
  rw [getD_set_self _ _ _ _ hr, getD_set_self _ _ _ _ hc]

theorem getCell_setCell_ne (g : List (List α)) {r c r' c' : Nat} (v d : α)
    (hr : r < g.length) (hne : ¬(r' = r ∧ c' = c)) :
    getCell (setCell g r c v) r' c' d = getCell g r' c' d := by
  unfold getCell setCell
  by_cases hrow : r' = r
  · subst hrow
    have hc : c' ≠ c := fun hcc => hne ⟨rfl, hcc⟩
    rw [getD_set_self _ _ _ _ hr, getD_set_ne _ _ _ (Ne.symm hc)]
  · rw [getD_set_ne _ _ _ (fun h => hrow h.symm)]

theorem grid4_setCell (g : List (List α)) (r c : Nat) (v : α)
    (hg : Grid4 g) : Grid4 (setCell g r c v) := by
  obtain ⟨hlen, hrow⟩ := hg
  refine ⟨by simp [setCell, hlen], ?_⟩
  intro i hi
  by_cases hir : i = r
  · subst hir
    have hlt : i < g.length := by omega
    unfold setCell
    rw [getD_set_self _ _ _ _ hlt, List.length_set]
    exact hrow i hi
  · unfold setCell
    rw [getD_set_ne _ _ _ (fun h => hir h.symm)]
    exact hrow i hi

/-! ### The Fisher-Yates swap is a permutation -/

theorem getD_cons_set_perm (t : List α) :
    ∀ (k : Nat) (a d : α), k < t.length →
      List.Perm ((t.getD k d) :: t.set k a) (a :: t) := by
  induction t with
  | nil => intro k a d hk; simp at hk
  | cons b t ih =>
    intro k a d hk
    cases k with
    | zero => simpa using List.Perm.swap a b t
    | succ k =>
      have hk' : k < t.length := by simpa using hk
      have h1 : List.Perm ((t.getD k d) :: b :: t.set k a)
          (b :: (t.getD k d) :: t.set k a) := List.Perm.swap b (t.getD k d) _
      have h2 : List.Perm (b :: (t.getD k d) :: t.set k a) (b :: a :: t) :=
        List.Perm.cons b (ih k a d hk')
      have h3 : List.Perm (b :: a :: t) (a :: b :: t) := List.Perm.swap a b t
      simpa using (h1.trans h2).trans h3

theorem swapIdx_perm (l : List α) :
    ∀ (i j : Nat) (d : α), i < l.length → j < l.length →
      List.Perm (swapIdx l i j d) l := by
  induction l with
  | nil => intro i j d hi _; simp at hi
  | cons a t ih =>
    intro i j d hi hj
    cases i with
    | zero =>
      cases j with
      | zero => simp [swapIdx]
      | succ j =>
        have hj' : j < t.length := by simpa using hj
        simpa [swapIdx] using getD_cons_set_perm t j a d hj'
    | succ i =>
      have hi' : i < t.length := by simpa using hi
      cases j with
      | zero =>
        simpa [swapIdx] using getD_cons_set_perm t i a d hi'
      | succ j =>
        have hj' : j < t.length := by simpa using hj
        simpa [swapIdx] using List.Perm.cons a (ih i j d hi' hj')

theorem length_swapIdx (l : List α) (i j : Nat) (d : α) :
    (swapIdx l i j d).length = l.length := by
  simp [swapIdx]

theorem shuffleFrom_perm (rand : Nat → Nat) (d : α) :
    ∀ (n : Nat) (arr : List α), n < arr.length →
      List.Perm (shuffleFrom rand d n arr) arr := by
  intro n
  induction n with
  | zero => intro arr _; exact List.Perm.refl arr
  | succ n ih =>
    intro arr h
    have hswap : List.Perm (swapIdx arr (n + 1) (rand (n + 1) % (n + 2)) d) arr :=
      swapIdx_perm arr (n + 1) (rand (n + 1) % (n + 2)) d h
        (lt_of_lt_of_le (Nat.mod_lt _ (Nat.succ_pos _)) h)
    have hlen : n < (swapIdx arr (n + 1) (rand (n + 1) % (n + 2)) d).length := by
      rw [length_swapIdx]; omega
    exact (ih _ hlen).trans hswap

theorem shuffle_perm (rand : Nat → Nat) (d : α) (arr : List α) :
    List.Perm (shuffle rand d arr) arr := by
  cases arr with
  | nil => exact List.Perm.refl _
  | cons a t =>
    exact shuffleFrom_perm rand d _ _ (by simp [shuffle])

/-! ### Claim theorems -/

/-- Claim C1: for every completed round the score is
`max(100 - moveCount*5, 10)` — monotonically non-increasing in the move
count and never below 10; moveCount 0 gives 100, 8 gives 60, 30 gives 10. -/
theorem C1_score_formula :
    (∀ m n : Nat, m ≤ n → computeScore n ≤ computeScore m) ∧
    (∀ m : Nat, 10 ≤ computeScore m) ∧
    computeScore 0 = 100 ∧ computeScore 8 = 60 ∧ computeScore 30 = 10 := by
  refine ⟨?_, fun m => le_max_right _ _, by decide, by decide, by decide⟩
  intro m n h
  have hmn : (m : Int) ≤ n := Int.ofNat_le.mpr h
  have : (100 : Int) - n * 5 ≤ 100 - m * 5 := by nlinarith
  exact max_le_max this le_rfl

/-- Claim C1 witness: the universal parts instantiated at concrete moves. -/
theorem C1_score_formula_witness :
    computeScore 9 ≤ computeScore 4 ∧ 10 ≤ computeScore 30 ∧ computeScore 0 = 100 :=
  ⟨C1_score_formula.1 4 9 (by decide), C1_score_formula.2.1 30,
    C1_score_formula.2.2.1⟩

/-- Claim C2: merging a new entry into a leaderboard (append, stable sort
descending by score, keep the first 5) always yields at most 5 records in
descending score order, and merging scores [90,80,70,60,50] with a new 75
gives [90,80,75,70,60]. -/
theorem C2_leaderboard_merge :
    (∀ (existing : List ScoreRecord) (entry : ScoreRecord),
      (mergeHighScores existing entry).length ≤ 5 ∧
      List.Sorted scoreGe (mergeHighScores existing entry)) ∧
    mergeHighScores
      [⟨"p1", 90, "t1"⟩, ⟨"p2", 80, "t2"⟩, ⟨"p3", 70, "t3"⟩,
       ⟨"p4", 60, "t4"⟩, ⟨"p5", 50, "t5"⟩] ⟨"p6", 75, "t6"⟩ =
      [⟨"p1", 90, "t1"⟩, ⟨"p2", 80, "t2"⟩, ⟨"p6", 75, "t6"⟩,
       ⟨"p3", 70, "t3"⟩, ⟨"p4", 60, "t4"⟩] := by
  refine ⟨fun existing entry => ⟨?_, ?_⟩, by decide⟩
  · have h := List.length_take 5 (List.insertionSort scoreGe (existing ++ [entry]))
    unfold mergeHighScores
    omega
  · exact List.Pairwise.sublist (List.take_sublist 5 _)
      (List.sorted_insertionSort scoreGe (existing ++ [entry]))

/-- Claim C3: every generated board is 4 rows of 4 cells laid out
row-major from a Fisher-Yates permutation of the fixed 16-symbol pool,
so the 16 cells are a permutation of `symbols` and each of the 8 symbols
appears exactly twice. -/
theorem C3_board_shape_and_pairs :
    ∀ rand : Nat → Nat,
      (createBoard rand).length = 4 ∧
      (createBoard rand).map List.length = [4, 4, 4, 4] ∧
      List.Perm (createBoard rand).flatten symbols ∧
      ((createBoard rand).flatten.count "A" = 2 ∧
       (createBoard rand).flatten.count "B" = 2 ∧
       (createBoard rand).flatten.count "C" = 2 ∧
       (createBoard rand).flatten.count "D" = 2 ∧
       (createBoard rand).flatten.count "E" = 2 ∧
       (createBoard rand).flatten.count "F" = 2 ∧
       (createBoard rand).flatten.count "G" = 2 ∧
       (createBoard rand).flatten.count "H" = 2) := by
  intro rand
  have hperm : List.Perm (shuffle rand "" symbols) symbols :=
    shuffle_perm rand "" symbols
  have hlen : (shuffle rand "" symbols).length = 16 := by
    rw [hperm.length_eq]; rfl
  have hflat : (createBoard rand).flatten = shuffle rand "" symbols := by
    show (shuffle rand "" symbols).take 4 ++
        (((shuffle rand "" symbols).drop 4).take 4 ++
          (((shuffle rand "" symbols).drop 8).take 4 ++
            (((shuffle rand "" symbols).drop 12).take 4 ++ []))) =
      shuffle rand "" symbols
    rw [List.append_nil]
    rw [List.take_of_length_le (l := (shuffle rand "" symbols).drop 12)
      (by rw [List.length_drop, hlen])]
    have h12 : ((shuffle rand "" symbols).drop 8).take 4 ++
        (shuffle rand "" symbols).drop 12 = (shuffle rand "" symbols).drop 8 := by
      have h : (shuffle rand "" symbols).drop 12 =
          ((shuffle rand "" symbols).drop 8).drop 4 := by
        rw [List.drop_drop]
      rw [h, List.take_append_drop]
    rw [h12]
    have h8 : ((shuffle rand "" symbols).drop 4).take 4 ++
        (shuffle rand "" symbols).drop 8 = (shuffle rand "" symbols).drop 4 := by
      have h : (shuffle rand "" symbols).drop 8 =
          ((shuffle rand "" symbols).drop 4).drop 4 := by
        rw [List.drop_drop]
      rw [h, List.take_append_drop]
    rw [h8, List.take_append_drop]
  have hfp : List.Perm (createBoard rand).flatten symbols := by
    rw [hflat]; exact hperm
  have hcount : ∀ x : String, (createBoard rand).flatten.count x = symbols.count x :=
    fun x => hfp.count_eq x
  refine ⟨by simp [createBoard], ?_, hfp, ?_, ?_, ?_, ?_, ?_, ?_, ?_, ?_⟩
  · show [((shuffle rand "" symbols).take 4).length,
      (((shuffle rand "" symbols).drop 4).take 4).length,
      (((shuffle rand "" symbols).drop 8).take 4).length,
      (((shuffle rand "" symbols).drop 12).take 4).length] = [4, 4, 4, 4]
    simp [List.length_take, List.length_drop, hlen]
  all_goals rw [hcount]; rfl

/-- Claim C7: loading the persisted leaderboard from an absent file or
from content the JSON parser rejects always yields the empty list; no
error reaches the player (the result is a plain value, never a failure). -/
theorem C7_load_degrades_to_empty :
    ∀ parse : String → Option Json,
      loadHighScores parse none = Json.arr [] ∧
      ∀ s : String, parse s = none → loadHighScores parse (some s) = Json.arr [] := by
  intro parse
  refine ⟨rfl, fun s h => ?_⟩
  simp [loadHighScores, h]

/-- Claim C7 witness: a parser rejecting everything, applied to an absent
file and to a malformed string. -/
theorem C7_load_degrades_to_empty_witness :
    loadHighScores (fun _ => none) none = Json.arr [] ∧
    loadHighScores (fun _ => none) (some "not valid json") = Json.arr [] :=
  ⟨(C7_load_degrades_to_empty (fun _ => none)).1,
    (C7_load_degrades_to_empty (fun _ => none)).2 "not valid json" rfl⟩

theorem decodeRecord_encodeRecord (r : ScoreRecord) :
    decodeRecord (encodeRecord r) = some r := by
  cases r; rfl

theorem decodeRecordList_map (l : List ScoreRecord) :
    decodeRecordList (l.map encodeRecord) = some l := by
  induction l with
  | nil => rfl
  | cons r rs ih => simp [decodeRecordList, decodeRecord_encodeRecord, ih]

/-- Claim C8: persisting a leaderboard list of at most 5 records (as the
JSON written by `saveHighScore`) and loading it back yields the same
list, field for field. -/
theorem C8_persist_roundtrip :
    ∀ l : List ScoreRecord, l.length ≤ 5 →
      decodeScores (encodeScores l) = some l := by
  intro l _
  show decodeRecordList (l.map encodeRecord) = some l
  exact decodeRecordList_map l

/-- Claim C8 witness: a concrete two-entry leaderboard round-trips. -/
theorem C8_persist_roundtrip_witness :
    decodeScores (encodeScores
      [⟨"Player", 60, "2026-01-01T00:00:00.000Z"⟩, ⟨"Ada", 100, "2026-01-02T00:00:00.000Z"⟩]) =
    some [⟨"Player", 60, "2026-01-01T00:00:00.000Z"⟩, ⟨"Ada", 100, "2026-01-02T00:00:00.000Z"⟩] :=
  C8_persist_roundtrip _ (by decide)

/-- Claim C9: board generation never mutates the module-level `symbols`
array: any number of rounds leaves the module state unchanged, because
`createBoard` shuffles a fresh copy — and the shuffle itself really does
rearrange the pool, so the copy is what protects it. -/
theorem C9_symbols_never_mutated :
    (∀ (m : ModuleState) (rands : List (Nat → Nat)), playRounds m rands = m) ∧
    (∀ rands : List (Nat → Nat), (playRounds ⟨symbols⟩ rands).syms = symbols) ∧
    (∃ rand : Nat → Nat, shuffle rand "" symbols ≠ symbols) := by
  have hall : ∀ (rands : List (Nat → Nat)) (m : ModuleState), playRounds m rands = m := by
    intro rands
    induction rands with
    | nil => intro m; rfl
    | cons r rs ih => intro m; exact ih m
  exact ⟨fun m rands => hall rands m,
    fun rands => by rw [hall rands ⟨symbols⟩],
    ⟨fun _ => 0, by decide⟩⟩

/-- Claim C10: `parseCoordinates` succeeds, with a 0-based pair whose
components are in [0,3], exactly on strings of the exact form `d,d` with
each `d` a digit 1-4 (the anchored regex); anything else — leading or
embedded whitespace, a two-digit number, a digit out of range — throws. -/
theorem C10_parseCoordinates_exact :
    (∀ s : String, (parseCoordinates s).isSome = coordPattern s) ∧
    (∀ (s : String) (r c : Nat), parseCoordinates s = some (r, c) → r ≤ 3 ∧ c ≤ 3) ∧
    parseCoordinates "1,2" = some (0, 1) ∧
    parseCoordinates "4,4" = some (3, 3) ∧
    parseCoordinates " 1,2" = none ∧
    parseCoordinates "1, 2" = none ∧
    parseCoordinates "01,2" = none ∧
    parseCoordinates "5,1" = none := by
  refine ⟨?_, ?_, by decide, by decide, by decide, by decide, by decide, by decide⟩
  · intro s
    cases hcb : coordPattern s with
    | false =>
      unfold parseCoordinates
      rw [hcb]
      simp
    | true =>
      unfold parseCoordinates
      rw [hcb]
      simp only [if_true]
      have hc := hcb
      unfold coordPattern at hc
      rcases hl : s.toList with _ | ⟨a, _ | ⟨sep, _ | ⟨b, _ | ⟨x, rest⟩⟩⟩⟩
      · rw [hl] at hc; exact Bool.noConfusion hc
      · rw [hl] at hc; exact Bool.noConfusion hc
      · rw [hl] at hc; exact Bool.noConfusion hc
      · rfl
      · rw [hl] at hc; exact Bool.noConfusion hc
  · intro s r c h
    unfold parseCoordinates at h
    by_cases hc : coordPattern s
    · rw [if_pos hc] at h
      unfold coordPattern at hc
      rcases hl : s.toList with _ | ⟨a, _ | ⟨sep, _ | ⟨b, _ | ⟨x, rest⟩⟩⟩⟩ <;>
        rw [hl] at hc h
      · exact Bool.noConfusion hc
      · exact Bool.noConfusion hc
      · exact Bool.noConfusion hc
      · simp only [isCoordDigit, Bool.and_eq_true, Bool.or_eq_true, beq_iff_eq] at hc
        obtain ⟨⟨-, ha⟩, hb⟩ := hc
        obtain ⟨hr, hcc⟩ : charToDigit a - 1 = r ∧ charToDigit b - 1 = c := by
          simpa using h
        subst hr; subst hcc
        constructor
        · rcases ha with ((rfl | rfl) | rfl) | rfl <;> decide
        · rcases hb with ((rfl | rfl) | rfl) | rfl <;> decide
      · exact Bool.noConfusion hc
    · rw [if_neg hc] at h
      exact Option.noConfusion h

/-- Claim C10 witness: the bounds implication instantiated at a concrete
accepted input. -/
theorem C10_parseCoordinates_exact_witness :
    parseCoordinates "3,4" = some (2, 3) ∧ 2 ≤ 3 ∧ 3 ≤ 3 :=
  ⟨by decide, C10_parseCoordinates_exact.2.1 "3,4" 2 3 (by decide)⟩

/-! ### Turn mechanics -/

theorem length_setCell (g : List (List α)) (r c : Nat) (v : α) :
    (setCell g r c v).length = g.length := by
  simp [setCell]

theorem turn_match (st : RoundState) (r1 c1 r2 c2 : Nat)
    (hb : getCell st.board r1 c1 "" = getCell st.board r2 c2 "") :
    turn st ((r1, c1), (r2, c2)) =
      { st with revealed := setCell (setCell st.revealed r1 c1 true) r2 c2 true,
                moves := st.moves + 1, matchCount := st.matchCount + 1 } := by
  simp [turn, revealFirst, resolveSecond, hb]

theorem turn_mismatch (st : RoundState) (r1 c1 r2 c2 : Nat)
    (hb : ¬(getCell st.board r1 c1 "" = getCell st.board r2 c2 "")) :
    turn st ((r1, c1), (r2, c2)) =
      { st with
          revealed :=
            setCell (setCell (setCell (setCell st.revealed r1 c1 true) r2 c2 true)
              r1 c1 false) r2 c2 false,
          moves := st.moves + 1 } := by
  simp [turn, revealFirst, resolveSecond, hb]

theorem grid4_turn (st : RoundState) (p : (Nat × Nat) × Nat × Nat)
    (hg : Grid4 st.revealed) : Grid4 (turn st p).revealed := by
  obtain ⟨⟨r1, c1⟩, r2, c2⟩ := p
  by_cases hb : getCell st.board r1 c1 "" = getCell st.board r2 c2 ""
  · rw [turn_match st r1 c1 r2 c2 hb]
    exact grid4_setCell _ _ _ _ (grid4_setCell _ _ _ _ hg)
  · rw [turn_mismatch st r1 c1 r2 c2 hb]
    exact grid4_setCell _ _ _ _ (grid4_setCell _ _ _ _
      (grid4_setCell _ _ _ _ (grid4_setCell _ _ _ _ hg)))

theorem turn_mono (st : RoundState) (p : (Nat × Nat) × Nat × Nat)
    (hg : Grid4 st.revealed) (hv : ValidTurn st p) :
    ∀ r c, getCell st.revealed r c false = true →
      getCell (turn st p).revealed r c false = true := by
  obtain ⟨⟨r1, c1⟩, r2, c2⟩ := p
  obtain ⟨h1, h2, h3, h4, hfst, hsnd, hne⟩ := hv
  dsimp only at h1 h2 h3 h4 hfst hsnd hne
  intro r c hrc
  have hlen : st.revealed.length = 4 := hg.1
  have hr1 : r1 < st.revealed.length := by omega
  have hne1 : ¬(r = r1 ∧ c = c1) := by
    rintro ⟨rfl, rfl⟩
    rw [hrc] at hfst
    exact Bool.noConfusion hfst
  have hrc2 : getCell st.revealed r2 c2 false = false := by
    rw [getCell_setCell_ne st.revealed true false hr1 hne] at hsnd
    exact hsnd
  have hne2 : ¬(r = r2 ∧ c = c2) := by
    rintro ⟨rfl, rfl⟩
    rw [hrc] at hrc2
    exact Bool.noConfusion hrc2
  have hr1' : r1 < (setCell st.revealed r1 c1 true).length := by
    rw [length_setCell]; omega
  have hr2' : r2 < (setCell st.revealed r1 c1 true).length := by
    rw [length_setCell]; omega
  by_cases hb : getCell st.board r1 c1 "" = getCell st.board r2 c2 ""
  · rw [turn_match st r1 c1 r2 c2 hb]
    show getCell (setCell (setCell st.revealed r1 c1 true) r2 c2 true) r c false = true
    rw [getCell_setCell_ne _ _ _ hr2' hne2,
      getCell_setCell_ne _ _ _ hr1 hne1]
    exact hrc
  · rw [turn_mismatch st r1 c1 r2 c2 hb]
    show getCell (setCell (setCell (setCell (setCell st.revealed r1 c1 true)
      r2 c2 true) r1 c1 false) r2 c2 false) r c false = true
    have hr2'' : r2 < (setCell (setCell (setCell st.revealed r1 c1 true)
        r2 c2 true) r1 c1 false).length := by
      simp only [length_setCell]; omega
    have hr1'' : r1 < (setCell (setCell st.revealed r1 c1 true)
        r2 c2 true).length := by
      simp only [length_setCell]; omega
    rw [getCell_setCell_ne _ _ _ hr2'' hne2,
      getCell_setCell_ne _ _ _ hr1'' hne1,
      getCell_setCell_ne _ _ _ hr2' hne2,
      getCell_setCell_ne _ _ _ hr1 hne1]
    exact hrc

theorem runTurns_mono :
    ∀ (ps : List ((Nat × Nat) × Nat × Nat)) (st : RoundState),
      Grid4 st.revealed → ValidSeq st ps →
      ∀ r c, getCell st.revealed r c false = true →
        getCell (runTurns st ps).revealed r c false = true := by
  intro ps
  induction ps with
  | nil => intro st _ _ r c h; exact h
  | cons p ps ih =>
    intro st hg hvs r c h
    cases hvs with
    | cons hv hrest =>
      exact ih (turn st p) (grid4_turn st p hg) hrest r c (turn_mono st p hg hv r c h)

/-- Claim C4: in every validated turn revealing two distinct hidden
cells, equal board symbols increase the match count by 1 and leave both
reveal flags true — permanently, through any sequence of further valid
turns; unequal symbols leave the match count alone and reset both flags
to false before the next turn begins. -/
theorem C4_match_mismatch_transitions :
    ∀ (st : RoundState) (p : (Nat × Nat) × Nat × Nat),
      Grid4 st.revealed → ValidTurn st p →
      (getCell st.board p.1.1 p.1.2 "" = getCell st.board p.2.1 p.2.2 "" →
        (turn st p).matchCount = st.matchCount + 1 ∧
        getCell (turn st p).revealed p.1.1 p.1.2 false = true ∧
        getCell (turn st p).revealed p.2.1 p.2.2 false = true ∧
        (∀ ps, ValidSeq (turn st p) ps →
          getCell (runTurns (turn st p) ps).revealed p.1.1 p.1.2 false = true ∧
          getCell (runTurns (turn st p) ps).revealed p.2.1 p.2.2 false = true)) ∧
      (getCell st.board p.1.1 p.1.2 "" ≠ getCell st.board p.2.1 p.2.2 "" →
        (turn st p).matchCount = st.matchCount ∧
        getCell (turn st p).revealed p.1.1 p.1.2 false = false ∧
        getCell (turn st p).revealed p.2.1 p.2.2 false = false) := by
  intro st p hg hv
  obtain ⟨⟨r1, c1⟩, r2, c2⟩ := p
  dsimp only
  obtain ⟨h1, h2, h3, h4, hfst, hsnd, hne⟩ := id hv
  dsimp only at h1 h2 h3 h4 hfst hsnd hne
  have hL : st.revealed.length = 4 := hg.1
  have hg1 : Grid4 (setCell st.revealed r1 c1 true) := grid4_setCell _ _ _ _ hg
  have hg2 : Grid4 (setCell (setCell st.revealed r1 c1 true) r2 c2 true) :=
    grid4_setCell _ _ _ _ hg1
  have hg3 : Grid4 (setCell (setCell (setCell st.revealed r1 c1 true) r2 c2 true)
      r1 c1 false) := grid4_setCell _ _ _ _ hg2
  have hne' : ¬(r1 = r2 ∧ c1 = c2) := fun hx => hne ⟨hx.1.symm, hx.2.symm⟩
  have hr1 : r1 < st.revealed.length := by omega
  have hc1 : c1 < (st.revealed.getD r1 []).length := by
    have := hg.2 r1 (by omega); omega
  have hfirst_true :
      getCell (setCell (setCell st.revealed r1 c1 true) r2 c2 true) r1 c1 false
        = true := by
    rw [getCell_setCell_ne _ _ _ (by rw [length_setCell]; omega) hne']
    exact getCell_setCell_self _ _ _ _ _ hr1 hc1
  have hsecond_true :
      getCell (setCell (setCell st.revealed r1 c1 true) r2 c2 true) r2 c2 false
        = true :=
    getCell_setCell_self _ _ _ _ _ (by rw [length_setCell]; omega)
      (by have := hg1.2 r2 (by omega); omega)
  constructor
  · intro hb
    refine ⟨by rw [turn_match st r1 c1 r2 c2 hb], ?_, ?_, ?_⟩
    · rw [turn_match st r1 c1 r2 c2 hb]; exact hfirst_true
    · rw [turn_match st r1 c1 r2 c2 hb]; exact hsecond_true
    · intro ps hseq
      have hgt : Grid4 (turn st ((r1, c1), (r2, c2))).revealed :=
        grid4_turn _ _ hg
      constructor
      · apply runTurns_mono ps _ hgt hseq
        rw [turn_match st r1 c1 r2 c2 hb]; exact hfirst_true
      · apply runTurns_mono ps _ hgt hseq
        rw [turn_match st r1 c1 r2 c2 hb]; exact hsecond_true
  · intro hb
    refine ⟨by rw [turn_mismatch st r1 c1 r2 c2 hb], ?_, ?_⟩
    · rw [turn_mismatch st r1 c1 r2 c2 hb]
      show getCell (setCell (setCell (setCell (setCell st.revealed r1 c1 true)
        r2 c2 true) r1 c1 false) r2 c2 false) r1 c1 false = false
      rw [getCell_setCell_ne _ _ _ (by simp only [length_setCell]; omega) hne']
      exact getCell_setCell_self _ _ _ _ _ (by simp only [length_setCell]; omega)
        (by have := hg2.2 r1 (by omega); omega)
    · rw [turn_mismatch st r1 c1 r2 c2 hb]
      show getCell (setCell (setCell (setCell (setCell st.revealed r1 c1 true)
        r2 c2 true) r1 c1 false) r2 c2 false) r2 c2 false = false
      exact getCell_setCell_self _ _ _ _ _ (by simp only [length_setCell]; omega)
        (by have := hg3.2 r2 (by omega); omega)

/-- A concrete round start: an unshuffled board and an all-hidden mask. -/
def demoState : RoundState :=
  { board := [["A", "A", "B", "B"], ["C", "C", "D", "D"],
              ["E", "E", "F", "F"], ["G", "G", "H", "H"]],
    revealed := [[false, false, false, false], [false, false, false, false],
                 [false, false, false, false], [false, false, false, false]],
    moves := 0, matchCount := 0 }

/-- Claim C4 witness: matching the two "A" cards bumps the match count
and both stay revealed even after a further valid turn. -/
theorem C4_match_mismatch_transitions_witness :
    (turn demoState ((0, 0), (0, 1))).matchCount = 1 ∧
    getCell (runTurns (turn demoState ((0, 0), (0, 1)))
      [((1, 0), (1, 1))]).revealed 0 0 false = true ∧
    getCell (runTurns (turn demoState ((0, 0), (0, 1)))
      [((1, 0), (1, 1))]).revealed 0 1 false = true := by
  have h := (C4_match_mismatch_transitions demoState ((0, 0), (0, 1))
    (by decide) (by decide)).1 (by decide)
  have hp := h.2.2.2 [((1, 0), (1, 1))]
    (ValidSeq.cons (by decide) (ValidSeq.nil _))
  exact ⟨h.1, hp.1, hp.2⟩

/-- Claim C5: whenever a reveal attempt is rejected (bad format or
out-of-range coordinates, an already-revealed cell, or the second pick
equal to the first), the round state — reveal mask, move count, match
count — is returned completely unchanged; the failure only re-prompts. -/
theorem C5_failed_reveal_leaves_state :
    ∀ (st : RoundState) (input : String) (r1 c1 : Nat),
      ((attemptFirst st input).2 = none → (attemptFirst st input).1 = st) ∧
      ((attemptSecond st r1 c1 input).2 = none →
        (attemptSecond st r1 c1 input).1 = st) := by
  intro st input r1 c1
  constructor
  · intro h
    cases hv : validateFirst st.revealed input with
    | some msg => simp [attemptFirst, hv]
    | none =>
      cases hp : parseCoordinates input with
      | none => simp [attemptFirst, hv, hp]
      | some rc =>
        obtain ⟨r, c⟩ := rc
        simp [attemptFirst, hv, hp] at h
  · intro h
    cases hv : validateSecond st.revealed r1 c1 input with
    | some msg => simp [attemptSecond, hv]
    | none =>
      cases hp : parseCoordinates input with
      | none => simp [attemptSecond, hv, hp]
      | some rc =>
        obtain ⟨r, c⟩ := rc
        simp [attemptSecond, hv, hp] at h

/-- Claim C5 witness: a malformed first input and a second pick equal to
the already-revealed first pick both leave a concrete state untouched. -/
theorem C5_failed_reveal_leaves_state_witness :
    (attemptFirst ⟨[["A"]], [[true]], 0, 0⟩ "zzz").1 = ⟨[["A"]], [[true]], 0, 0⟩ ∧
    (attemptSecond ⟨[["A"]], [[true]], 0, 0⟩ 0 0 "1,1").1 =
      ⟨[["A"]], [[true]], 0, 0⟩ :=
  ⟨(C5_failed_reveal_leaves_state ⟨[["A"]], [[true]], 0, 0⟩ "zzz" 0 0).1 rfl,
    (C5_failed_reveal_leaves_state ⟨[["A"]], [[true]], 0, 0⟩ "1,1" 0 0).2 rfl⟩

/-- Claim C6 counterexample: the code has no distinct SameAsFirst error.
With the first pick (0,0) revealed and (1,1) revealed by an earlier
match, re-picking the first pick is rejected with exactly the same
combined error value as picking the already-revealed (1,1). -/
theorem C6_no_distinct_error_counterexample :
    validateSecond
      [[true, false, false, false], [false, true, false, false],
       [false, false, false, false], [false, false, false, false]] 0 0 "1,1" =
      some "Invalid or already revealed card!" ∧
    validateSecond
      [[true, false, false, false], [false, true, false, false],
       [false, false, false, false], [false, false, false, false]] 0 0 "2,2" =
      some "Invalid or already revealed card!" :=
  ⟨rfl, rfl⟩

/-- Claim C6 amended: a second pick equal to the first pick is always
rejected (the player is re-prompted), but with the same combined
"Invalid or already revealed card!" error used for already-revealed
cells; the code does not distinguish a SameAsFirst error. -/
theorem C6_same_as_first_rejected :
    ∀ (revealed : List (List Bool)) (r1 c1 : Nat) (input : String),
      parseCoordinates input = some (r1, c1) →
      validateSecond revealed r1 c1 input =
        some "Invalid or already revealed card!" := by
  intro revealed r1 c1 input hp
  unfold validateSecond
  rw [hp]
  simp

/-- Claim C6 amended-claim witness: re-picking the first card at (0,0)
via "1,1" is rejected on a concrete mask. -/
theorem C6_same_as_first_rejected_witness :
    validateSecond [[true, false], [false, false]] 0 0 "1,1" =
      some "Invalid or already revealed card!" :=
  C6_same_as_first_rejected [[true, false], [false, false]] 0 0 "1,1" rfl

end MemoryMatch
